import Mathlib

/-!
Verification of the VOC-to-YOLO conversion script `voctoyolo.py`.

The script is embedded shallowly:
* Python floats are modelled as exact rationals (the script only divides
  small integers, so the 6-decimal renderings coincide on all inputs used
  in the claims).
* Python exceptions are modelled with `Except PyError`: an exception that
  the source catches is turned back into a normal result at the `try`
  boundary that catches it; an uncaught exception propagates as
  `Except.error`.
* An XML document already read from disk is modelled as `Option XmlElem`
  (`none` = `xml.etree.ElementTree.ParseError` raised by `ET.parse`).
* `os.listdir` is modelled as an `Option (List String)` argument
  (`none` = `FileNotFoundError`), `random.shuffle` as an oracle function,
  and file writes as the association list of (path, lines) the run produces.
  Image copying (step 4b of the script) is not needed by any claim and is
  not modelled.
-/

deriving instance DecidableEq for Except

/-- The Python exceptions that the relevant code paths can raise:
`AttributeError` (attribute access on `None`), `ValueError`
(`int()` on a non-numeric string, `list.index` miss) and `TypeError`
(`int(None)`). -/
inductive PyError where
  | attributeError
  | valueError
  | typeError
deriving DecidableEq

/-- An XML element as `xml.etree.ElementTree` exposes it: a tag, the
`.text` attribute (`none` when the element has no text), and the list of
direct children in document order. -/
inductive XmlElem where
  | mk (tag : String) (text : Option String) (children : List XmlElem)

def XmlElem.tag : XmlElem → String
  | .mk t _ _ => t

def XmlElem.text : XmlElem → Option String
  | .mk _ x _ => x

def XmlElem.children : XmlElem → List XmlElem
  | .mk _ _ c => c

/-- `Element.find`: first direct child with the given tag, or `None`. -/
def XmlElem.find (e : XmlElem) (t : String) : Option XmlElem :=
  e.children.find? (fun c => c.tag == t)

/-- `Element.findall`: all direct children with the given tag, in order. -/
def XmlElem.findall (e : XmlElem) (t : String) : List XmlElem :=
  e.children.filter (fun c => c.tag == t)

/-- Python `s.endswith(pat)` on plain strings. -/
def pyEndsWith (s pat : String) : Bool :=
  pat.data.isSuffixOf s.data

/-- The digit characters accepted and folded by Python `int`. -/
def parseDigits (cs : List Char) : Option Nat :=
  if cs.isEmpty then none
  else if cs.all Char.isDigit then
    some (cs.foldl (fun a c => 10 * a + (c.toNat - 48)) 0)
  else none

/-- Python `int(s)` on a string: strip surrounding whitespace, allow one
optional sign, then require a non-empty run of digits; `none` models the
`ValueError` raised otherwise. (Underscore digit separators, accepted by
CPython, are not modelled; no claim depends on them.) -/
def pyParseInt (s : String) : Option Int :=
  let cs := ((s.data.dropWhile Char.isWhitespace).reverse.dropWhile
      Char.isWhitespace).reverse
  match cs with
  | '+' :: ds => (parseDigits ds).map (fun n => (n : Int))
  | '-' :: ds => (parseDigits ds).map (fun n => -(n : Int))
  | ds => (parseDigits ds).map (fun n => (n : Int))

/-- `int(node.text)`: `TypeError` when the text is `None`, `ValueError`
when it does not parse as an integer. -/
def pyInt (t : Option String) : Except PyError Int :=
  match t with
  | none => Except.error PyError.typeError
  | some s =>
    match pyParseInt s with
    | none => Except.error PyError.valueError
    | some n => Except.ok n

/-- Python `list.index` as a total function: `some i` for the first index
holding `x`, `none` models the `ValueError` raised when absent. -/
def pyIndex : List String → String → Option Nat
  | [], _ => none
  | c :: cs, x => if c = x then some 0 else (pyIndex cs x).map (· + 1)

/-- `convert_to_yolo_format` (voctoyolo.py lines 22-36), floats as exact
rationals: size `(img_w, img_h)`, box `(xmin, xmax, ymin, ymax)`. -/
def convert_to_yolo_format (size : ℚ × ℚ) (box : ℚ × ℚ × ℚ × ℚ) :
    ℚ × ℚ × ℚ × ℚ :=
  let img_w := size.1
  let img_h := size.2
  let xmin := box.1
  let xmax := box.2.1
  let ymin := box.2.2.1
  let ymax := box.2.2.2
  let x_center := (xmin + xmax) / (2 * img_w)
  let y_center := (ymin + ymax) / (2 * img_h)
  let width := (xmax - xmin) / img_w
  let height := (ymax - ymin) / img_h
  (x_center, y_center, width, height)

/-- The formulas of spec section 4.1, written from the spec's words, to be
compared with the source function. -/
def convert_spec (W H xmin xmax ymin ymax : ℚ) : ℚ × ℚ × ℚ × ℚ :=
  ((xmin + xmax) / (2 * W), (ymin + ymax) / (2 * H),
   (xmax - xmin) / W, (ymax - ymin) / H)

/-- Round to the nearest integer, ties to even — the rounding used by
Python float formatting. -/
def roundHalfEven (q : ℚ) : Int :=
  let f := ⌊q⌋
  if q - f < 1 / 2 then f
  else if q - f > 1 / 2 then f + 1
  else if f % 2 = 0 then f else f + 1

/-- The character for decimal digit `d % 10`. -/
def digitChar (d : Nat) : Char :=
  Char.ofNat (48 + d % 10)

/-- Exactly six decimal digit characters for `m < 10^6` (zero padded). -/
def digits6 (m : Nat) : String :=
  String.mk [digitChar (m / 100000), digitChar (m / 10000),
    digitChar (m / 1000), digitChar (m / 100), digitChar (m / 10),
    digitChar m]

/-- Python `f-string` formatting `f:.6f` on an exact rational: round the
value to six decimal places (ties to even) and render sign, integer part,
a dot and exactly six fractional digits. -/
def fmt6 (q : ℚ) : String :=
  let n := roundHalfEven (q * 1000000)
  let sign := if n < 0 ∨ (n = 0 ∧ q < 0) then "-" else ""
  sign ++ Nat.repr (n.natAbs / 1000000) ++ "." ++ digits6 (n.natAbs % 1000000)

/-- One output label line (voctoyolo.py line 83): the class id and the
four formatted box values joined by single spaces, plus a newline. -/
def yoloLine (class_id : Nat) (b : ℚ × ℚ × ℚ × ℚ) : String :=
  Nat.repr class_id ++ " " ++ fmt6 b.1 ++ " " ++ fmt6 b.2.1 ++ " " ++
    fmt6 b.2.2.1 ++ " " ++ fmt6 b.2.2.2 ++ "\n"

/-- One coordinate lookup inside the `try` of lines 72-79:
`int(bndbox.find(t).text)`. `attributeError` when `bndbox` is `None` or
the child is missing; `pyInt` errors otherwise. -/
def getCoord (bndbox : Option XmlElem) (t : String) : Except PyError Int :=
  match bndbox with
  | none => Except.error PyError.attributeError
  | some b =>
    match b.find t with
    | none => Except.error PyError.attributeError
    | some el => pyInt el.text

/-- The four coordinate lookups, in the source's evaluation order
(xmin, ymin, xmax, ymax); the first exception wins. -/
def getCoords (bndbox : Option XmlElem) :
    Except PyError (Int × Int × Int × Int) := do
  let xmin ← getCoord bndbox "xmin"
  let ymin ← getCoord bndbox "ymin"
  let xmax ← getCoord bndbox "xmax"
  let ymax ← getCoord bndbox "ymax"
  pure (xmin, ymin, xmax, ymax)

/-- The body of the size `try` of lines 53-58:
`int(size_node.find('width').text)` then the same for `'height'`. -/
def getSize (size_node : Option XmlElem) : Except PyError (Int × Int) :=
  match size_node with
  | none => Except.error PyError.attributeError
  | some sn =>
    match sn.find "width" with
    | none => Except.error PyError.attributeError
    | some wEl =>
      match pyInt wEl.text with
      | Except.error e => Except.error e
      | Except.ok w =>
        match sn.find "height" with
        | none => Except.error PyError.attributeError
        | some hEl => (pyInt hEl.text).map (fun h => (w, h))

/-- One iteration of the object loop (lines 62-84). `Except.ok none`
means the object was skipped with a warning (unknown class, or an
`AttributeError` caught at lines 77-79); `Except.error` is an uncaught
exception escaping the loop. -/
def processObject (classes : List String) (img_w img_h : Int)
    (obj : XmlElem) : Except PyError (Option String) :=
  match obj.find "name" with
  | none => Except.error PyError.attributeError
  | some nameEl =>
    match nameEl.text with
    | none => Except.ok none
    | some class_name =>
      match pyIndex classes class_name with
      | none => Except.ok none
      | some class_id =>
        match getCoords (obj.find "bndbox") with
        | Except.error PyError.attributeError => Except.ok none
        | Except.error e => Except.error e
        | Except.ok (xmin, ymin, xmax, ymax) =>
          Except.ok (some (yoloLine class_id
            (convert_to_yolo_format ((img_w : ℚ), (img_h : ℚ))
              ((xmin : ℚ), (xmax : ℚ), (ymin : ℚ), (ymax : ℚ)))))

/-- The whole object loop: accumulate the emitted lines in source order,
propagating any uncaught exception. -/
def processObjList (classes : List String) (img_w img_h : Int) :
    List XmlElem → Except PyError (List String)
  | [] => Except.ok []
  | obj :: rest =>
    match processObject classes img_w img_h obj with
    | Except.error e => Except.error e
    | Except.ok none => processObjList classes img_w img_h rest
    | Except.ok (some line) =>
      (processObjList classes img_w img_h rest).map (fun ls => line :: ls)

/-- `process_xml_file` (lines 39-86). The document argument is the result
of `ET.parse`: `none` is a `ParseError`, caught at lines 44-48 (warn,
return `[]`). An `AttributeError` from the size lookup is caught at lines
53-58 (warn, return `[]`); any other exception propagates. -/
def process_xml_file (doc : Option XmlElem) (classes : List String) :
    Except PyError (List String) :=
  match doc with
  | none => Except.ok []
  | some root =>
    match getSize (root.find "size") with
    | Except.error PyError.attributeError => Except.ok []
    | Except.error e => Except.error e
    | Except.ok (img_w, img_h) =>
      processObjList classes img_w img_h (root.findall "object")

/-- `CLASS_NAMES` (line 16). -/
def CLASS_NAMES : List String := ["pothole"]

/-- `SPLIT_RATIOS['train']` (line 19), the float literal as a rational. -/
def SPLIT_RATIOS_train : ℚ := 0.70

/-- `SPLIT_RATIOS['val']` (line 19). -/
def SPLIT_RATIOS_val : ℚ := 0.15

/-- `SPLIT_RATIOS['test']` (line 19). -/
def SPLIT_RATIOS_test : ℚ := 0.15

/-- `train_end = int(SPLIT_RATIOS['train'] * num_files)` (line 113);
the value is nonnegative, so `int` truncation is the floor. -/
def train_end (n : Nat) : Nat := ⌊SPLIT_RATIOS_train * (n : ℚ)⌋₊

/-- `val_end = train_end + int(SPLIT_RATIOS['val'] * num_files)`
(line 114). -/
def val_end (n : Nat) : Nat := train_end n + ⌊SPLIT_RATIOS_val * (n : ℚ)⌋₊

/-- `data_splits` (lines 116-120): the three contiguous slices
`xs[:train_end]`, `xs[train_end:val_end]`, `xs[val_end:]`. -/
def data_splits (xs : List String) :
    List String × List String × List String :=
  (xs.take (train_end xs.length),
   (xs.drop (train_end xs.length)).take
     (val_end xs.length - train_end xs.length),
   xs.drop (val_end xs.length))

/-- `os.path.splitext(s)[0]` for a bare file name (no path separator):
split at the last dot, except when every character before it is a dot
(leading-dot files keep their name whole). -/
def stripExt (s : String) : String :=
  match s.data.reverse.findIdx? (fun c => c == '.') with
  | none => s
  | some r =>
    let i := s.data.length - 1 - r
    if (s.data.take i).all (fun c => c == '.') then s
    else String.mk (s.data.take i)

/-- The label output path of line 143, relative to `OUTPUT_DIR`. -/
def labelOutputPath (subset : String) (xml_file : String) : String :=
  "labels/" ++ subset ++ "/" ++ stripExt xml_file ++ ".txt"

/-- The per-subset loop of lines 135-145, restricted to the label writes:
for each file, run `process_xml_file` and write the returned lines (even
zero of them) to the label path. The result is the ordered list of
(path, lines) writes; an uncaught exception aborts the loop. -/
def writeLabels (classes : List String) (env : String → Option XmlElem)
    (subset : String) : List String →
    Except PyError (List (String × List String))
  | [] => Except.ok []
  | f :: fs =>
    match process_xml_file (env f) classes with
    | Except.error e => Except.error e
    | Except.ok lines =>
      (writeLabels classes env subset fs).map
        (fun rest => (labelOutputPath subset f, lines) :: rest)

/-- The observable outcome of one run of `main`. -/
inductive MainResult where
  | fatalDirMissing
  | fatalNoFiles
  | uncaught (e : PyError)
  | completed (labels : List (String × List String))
deriving DecidableEq

/-- The `main` function (lines 89-163), named `mainRun` here since Lean reserves `main`; restricted to control flow and label writes.
`listing` is `os.listdir(XML_DIR)` (`none` = `FileNotFoundError`, the
early return of lines 101-103); the empty filtered list is the early
return of lines 105-107. `shuffle` is the `random.shuffle` oracle and
`env` maps a file name to its parsed document. -/
def mainRun (listing : Option (List String))
    (shuffle : List String → List String)
    (env : String → Option XmlElem) : MainResult :=
  match listing with
  | none => MainResult.fatalDirMissing
  | some names =>
    let xml_files := names.filter (fun f => pyEndsWith f ".xml")
    if xml_files.isEmpty then MainResult.fatalNoFiles
    else
      let splits := data_splits (shuffle xml_files)
      match writeLabels CLASS_NAMES env "train" splits.1 with
      | Except.error e => MainResult.uncaught e
      | Except.ok o1 =>
        match writeLabels CLASS_NAMES env "val" splits.2.1 with
        | Except.error e => MainResult.uncaught e
        | Except.ok o2 =>
          match writeLabels CLASS_NAMES env "test" splits.2.2 with
          | Except.error e => MainResult.uncaught e
          | Except.ok o3 => MainResult.completed (o1 ++ o2 ++ o3)

/-- The example annotation of spec section 8: 640x480 image, one
`pothole` object with box (100, 200, 50, 150). -/
def exampleRoot : XmlElem :=
  XmlElem.mk "annotation" none
    [XmlElem.mk "size" none
      [XmlElem.mk "width" (some "640") [],
       XmlElem.mk "height" (some "480") []],
     XmlElem.mk "object" none
      [XmlElem.mk "name" (some "pothole") [],
       XmlElem.mk "bndbox" none
        [XmlElem.mk "xmin" (some "100") [],
         XmlElem.mk "ymin" (some "50") [],
         XmlElem.mk "xmax" (some "200") [],
         XmlElem.mk "ymax" (some "150") []]]]

/-- An annotation whose size section is present but whose width text is
not an integer: `int("abc")` raises an uncaught `ValueError`. -/
def badRoot : XmlElem :=
  XmlElem.mk "annotation" none
    [XmlElem.mk "size" none
      [XmlElem.mk "width" (some "abc") [],
       XmlElem.mk "height" (some "480") []]]

/-- Identity stand-in for the `random.shuffle` oracle. -/
def idShuffle : List String → List String := fun xs => xs

/-- An annotation directory with no parsable files. -/
def emptyEnv : String → Option XmlElem := fun _ => none

/-- Every file parses to the example annotation. -/
def goodEnv : String → Option XmlElem := fun _ => some exampleRoot

/-- Every file parses to the annotation with the malformed width. -/
def badEnv : String → Option XmlElem := fun _ => some badRoot

/-- An annotation with no size section at all. -/
def noSizeRoot : XmlElem :=
  XmlElem.mk "annotation" none []

/-- An object element whose class name is not in `CLASS_NAMES`. -/
def unknownClassObj : XmlElem :=
  XmlElem.mk "object" none [XmlElem.mk "name" (some "car") []]

/-- A string is one value of a 6-decimal float format: some prefix, a
dot, then exactly six digit characters. -/
def sixDecimal (s : String) : Prop :=
  ∃ pre post : String,
    s = pre ++ "." ++ post ∧ post.length = 6 ∧ ∀ c ∈ post.data, c.isDigit = true

/-- The three slices of `data_splits` are pairwise disjoint, cover the
input exactly, and their lengths sum to the input length. -/
def splitsPartition (xs : List String) : Prop :=
  ((data_splits xs).1.Disjoint (data_splits xs).2.1 ∧
   (data_splits xs).1.Disjoint (data_splits xs).2.2 ∧
   (data_splits xs).2.1.Disjoint (data_splits xs).2.2) ∧
  (∀ x, x ∈ xs ↔
    x ∈ (data_splits xs).1 ∨ x ∈ (data_splits xs).2.1 ∨
      x ∈ (data_splits xs).2.2) ∧
  (data_splits xs).1.length + (data_splits xs).2.1.length +
    (data_splits xs).2.2.length = xs.length

/-- Bounds and exact round-trip of the converter on an in-range box. -/
def roundTripOK (W H xmin xmax ymin ymax : ℚ) : Prop :=
  (0 ≤ (convert_to_yolo_format (W, H) (xmin, xmax, ymin, ymax)).1 ∧
    (convert_to_yolo_format (W, H) (xmin, xmax, ymin, ymax)).1 ≤ 1) ∧
  (0 ≤ (convert_to_yolo_format (W, H) (xmin, xmax, ymin, ymax)).2.1 ∧
    (convert_to_yolo_format (W, H) (xmin, xmax, ymin, ymax)).2.1 ≤ 1) ∧
  (0 ≤ (convert_to_yolo_format (W, H) (xmin, xmax, ymin, ymax)).2.2.1 ∧
    (convert_to_yolo_format (W, H) (xmin, xmax, ymin, ymax)).2.2.1 ≤ 1) ∧
  (0 ≤ (convert_to_yolo_format (W, H) (xmin, xmax, ymin, ymax)).2.2.2 ∧
    (convert_to_yolo_format (W, H) (xmin, xmax, ymin, ymax)).2.2.2 ≤ 1) ∧
  ((convert_to_yolo_format (W, H) (xmin, xmax, ymin, ymax)).1 -
    (convert_to_yolo_format (W, H) (xmin, xmax, ymin, ymax)).2.2.1 / 2) * W
      = xmin ∧
  ((convert_to_yolo_format (W, H) (xmin, xmax, ymin, ymax)).1 +
    (convert_to_yolo_format (W, H) (xmin, xmax, ymin, ymax)).2.2.1 / 2) * W
      = xmax ∧
  ((convert_to_yolo_format (W, H) (xmin, xmax, ymin, ymax)).2.1 -
    (convert_to_yolo_format (W, H) (xmin, xmax, ymin, ymax)).2.2.2 / 2) * H
      = ymin ∧
  ((convert_to_yolo_format (W, H) (xmin, xmax, ymin, ymax)).2.1 +
    (convert_to_yolo_format (W, H) (xmin, xmax, ymin, ymax)).2.2.2 / 2) * H
      = ymax

theorem train_end_eq (n : ℕ) : train_end n = 7 * n / 10 := by
  unfold train_end SPLIT_RATIOS_train
  rw [show (0.70 : ℚ) = ((7 : ℕ) : ℚ) / ((10 : ℕ) : ℚ) by norm_num]
  rw [div_mul_eq_mul_div, ← Nat.cast_mul, Nat.floor_div_nat, Nat.floor_natCast]

theorem val_floor_eq (n : ℕ) : ⌊SPLIT_RATIOS_val * (n : ℚ)⌋₊ = 3 * n / 20 := by
  unfold SPLIT_RATIOS_val
  rw [show (0.15 : ℚ) = ((3 : ℕ) : ℚ) / ((20 : ℕ) : ℚ) by norm_num]
  rw [div_mul_eq_mul_div, ← Nat.cast_mul, Nat.floor_div_nat, Nat.floor_natCast]

theorem val_end_eq (n : ℕ) : val_end n = 7 * n / 10 + 3 * n / 20 := by
  unfold val_end
  rw [train_end_eq, val_floor_eq]

theorem take_drop_partition (xs : List String) (a b : ℕ) (hab : a ≤ b) :
    xs.take a ++ ((xs.drop a).take (b - a) ++ xs.drop b) = xs := by
  obtain ⟨k, rfl⟩ : ∃ k, b = a + k := ⟨b - a, by omega⟩
  rw [show a + k - a = k by omega]
  rw [List.drop_take_append_drop]
  exact List.take_append_drop a xs

theorem data_splits_append (xs : List String) :
    (data_splits xs).1 ++
      ((data_splits xs).2.1 ++ (data_splits xs).2.2) = xs := by
  simp only [data_splits]
  exact take_drop_partition xs _ _ (by unfold val_end; omega)

theorem pyIndex_some_lt :
    ∀ (cls : List String) (x : String) (i : ℕ),
      pyIndex cls x = some i → i < cls.length := by
  intro cls
  induction cls with
  | nil => intro x i h; simp [pyIndex] at h
  | cons c cs ih =>
    intro x i h
    simp only [pyIndex] at h
    by_cases hc : c = x
    · rw [if_pos hc] at h
      cases h
      simp
    · rw [if_neg hc] at h
      rcases Option.map_eq_some'.mp h with ⟨j, hj, rfl⟩
      have := ih x j hj
      simp only [List.length_cons]
      omega

theorem pyIndex_eq_none (cls : List String) (x : String) :
    x ∉ cls → pyIndex cls x = none := by
  induction cls with
  | nil => intro h; rfl
  | cons c cs ih =>
    intro h
    simp only [List.mem_cons, not_or] at h
    simp only [pyIndex]
    rw [if_neg (fun hc : c = x => h.1 hc.symm), ih h.2]
    rfl

theorem digitChar_isDigit (d : ℕ) : (digitChar d).isDigit = true := by
  have h : d % 10 < 10 := Nat.mod_lt _ (by norm_num)
  simp only [digitChar]
  revert h
  generalize d % 10 = m
  intro h
  interval_cases m <;> decide

theorem fmt6_sixDecimal (q : ℚ) : sixDecimal (fmt6 q) := by
  simp only [fmt6, sixDecimal]
  refine ⟨_, _, rfl, rfl, ?_⟩
  intro c hc
  simp only [digits6, String.data, List.mem_cons, List.not_mem_nil,
    or_false] at hc
  rcases hc with h | h | h | h | h | h <;> (rw [h]; exact digitChar_isDigit _)

theorem exceptMapError {α β ε : Type} (f : α → β) (e : ε) :
    (Except.error e : Except ε α).map f = Except.error e := rfl

theorem exceptMapOk {α β ε : Type} (f : α → β) (x : α) :
    (Except.ok x : Except ε α).map f = Except.ok (f x) := rfl

theorem processObject_ok_some (classes : List String) (w h : Int)
    (obj : XmlElem) (l : String)
    (hp : processObject classes w h obj = Except.ok (some l)) :
    ∃ cid b, cid < classes.length ∧ l = yoloLine cid b := by
  unfold processObject at hp
  split at hp
  · exact absurd hp (by simp)
  split at hp
  · exact absurd hp (by simp)
  split at hp
  · exact absurd hp (by simp)
  next cid hidx =>
  split at hp
  · exact absurd hp (by simp)
  · exact absurd hp (by simp)
  next xmin ymin xmax ymax hg =>
  simp only [Except.ok.injEq, Option.some.injEq] at hp
  exact ⟨cid, _, pyIndex_some_lt _ _ _ hidx, hp.symm⟩

theorem processObjList_mem (classes : List String) (w h : Int) :
    ∀ (objs : List XmlElem) (lines : List String),
      processObjList classes w h objs = Except.ok lines →
      ∀ l ∈ lines, ∃ cid b, l = yoloLine cid b ∧ cid < classes.length := by
  intro objs
  induction objs with
  | nil =>
    intro lines hl l hm
    simp only [processObjList, Except.ok.injEq] at hl
    subst hl
    simp at hm
  | cons obj rest ih =>
    intro lines hl l hm
    simp only [processObjList] at hl
    split at hl
    · exact absurd hl (by simp)
    · exact ih lines hl l hm
    next line heq =>
      rcases hr : processObjList classes w h rest with e | ls
      · rw [hr, exceptMapError] at hl
        exact absurd hl (by simp)
      · rw [hr, exceptMapOk] at hl
        simp only [Except.ok.injEq] at hl
        subst hl
        rcases List.mem_cons.mp hm with rfl | hm'
        · obtain ⟨cid, b, hcid, hb⟩ :=
            processObject_ok_some classes w h obj l heq
          exact ⟨cid, b, hb, hcid⟩
        · exact ih ls hr l hm'

theorem processLines_structure (doc : Option XmlElem)
    (classes : List String) (lines : List String)
    (hp : process_xml_file doc classes = Except.ok lines) :
    ∀ l ∈ lines, ∃ cid b, l = yoloLine cid b ∧ cid < classes.length := by
  intro l hm
  rcases doc with _ | root
  · simp only [process_xml_file, Except.ok.injEq] at hp
    subst hp
    simp at hm
  · simp only [process_xml_file] at hp
    split at hp
    · simp only [Except.ok.injEq] at hp
      subst hp
      simp at hm
    · exact absurd hp (by simp)
    next img_w img_h heq =>
      exact processObjList_mem classes img_w img_h _ lines hp l hm

theorem processObject_unknown (classes : List String) (w h : Int)
    (obj nmEl : XmlElem) (s : String)
    (hn : obj.find "name" = some nmEl) (ht : nmEl.text = some s)
    (hs : s ∉ classes) :
    processObject classes w h obj = Except.ok none := by
  simp only [processObject, hn, ht, pyIndex_eq_none classes s hs]

theorem writeLabels_spec (classes : List String)
    (env : String → Option XmlElem) (subset : String) :
    ∀ (files : List String) (out : List (String × List String)),
      writeLabels classes env subset files = Except.ok out →
      out.map Prod.fst = files.map (labelOutputPath subset) ∧
      ∀ f ∈ files, ∃ lines,
        process_xml_file (env f) classes = Except.ok lines ∧
          (labelOutputPath subset f, lines) ∈ out := by
  intro files
  induction files with
  | nil =>
    intro out h
    simp only [writeLabels, Except.ok.injEq] at h
    subst h
    exact ⟨rfl, by simp⟩
  | cons f fs ih =>
    intro out h
    simp only [writeLabels] at h
    split at h
    · exact absurd h (by simp)
    next lines hl =>
      rcases hr : writeLabels classes env subset fs with e | rest
      · rw [hr, exceptMapError] at h
        exact absurd h (by simp)
      · rw [hr, exceptMapOk] at h
        simp only [Except.ok.injEq] at h
        subst h
        obtain ⟨hmap, hmem⟩ := ih rest hr
        constructor
        · simp [List.map_cons, hmap]
        · intro g hg
          rcases List.mem_cons.mp hg with rfl | hg'
          · exact ⟨lines, hl, List.mem_cons_self _ _⟩
          · obtain ⟨ls, hpl, hin⟩ := hmem g hg'
            exact ⟨ls, hpl, List.mem_cons_of_mem _ hin⟩

theorem writeLabels_total (classes : List String)
    (env : String → Option XmlElem) (subset : String) :
    ∀ fs : List String,
      (∀ f ∈ fs, ∃ lines,
        process_xml_file (env f) classes = Except.ok lines) →
      ∃ out, writeLabels classes env subset fs = Except.ok out := by
  intro fs
  induction fs with
  | nil => intro _; exact ⟨[], rfl⟩
  | cons f fs ih =>
    intro h
    obtain ⟨lines, hl⟩ := h f (List.mem_cons_self _ _)
    obtain ⟨out, hout⟩ := ih (fun g hg => h g (List.mem_cons_of_mem _ hg))
    refine ⟨(labelOutputPath subset f, lines) :: out, ?_⟩
    simp only [writeLabels, hl, hout, exceptMapOk]
theorem fmt6_x_center : fmt6 (15/64 : ℚ) = "0.234375" := by
  have h : roundHalfEven ((15/64 : ℚ) * 1000000) = 234375 := by
    simp only [roundHalfEven]
    norm_num
  simp only [fmt6, h]
  norm_num
  decide

theorem fmt6_y_center : fmt6 (5/24 : ℚ) = "0.208333" := by
  have hf : ⌊(625000/3 : ℚ)⌋ = 208333 := by
    rw [Int.floor_eq_iff]
    constructor <;> norm_num
  have harg : (5/24 : ℚ) * 1000000 = 625000/3 := by norm_num
  have h : roundHalfEven ((5/24 : ℚ) * 1000000) = 208333 := by
    simp only [roundHalfEven, harg, hf]
    norm_num
  simp only [fmt6, h]
  norm_num
  decide

theorem fmt6_width : fmt6 (5/32 : ℚ) = "0.156250" := by
  have h : roundHalfEven ((5/32 : ℚ) * 1000000) = 156250 := by
    simp only [roundHalfEven]
    norm_num
  simp only [fmt6, h]
  norm_num
  decide

theorem example_convert : convert_to_yolo_format
    (((640 : Int) : ℚ), ((480 : Int) : ℚ))
    (((100 : Int) : ℚ), ((200 : Int) : ℚ), ((50 : Int) : ℚ),
      ((150 : Int) : ℚ)) = (15/64, 5/24, 5/32, 5/24) := by
  simp only [convert_to_yolo_format]
  norm_num

theorem example_line : yoloLine 0 ((15/64 : ℚ), (5/24 : ℚ), (5/32 : ℚ),
    (5/24 : ℚ)) = "0 0.234375 0.208333 0.156250 0.208333\n" := by
  simp only [yoloLine, fmt6_x_center, fmt6_y_center, fmt6_width]
  rfl

theorem exampleRoot_lines : process_xml_file (some exampleRoot) CLASS_NAMES =
    Except.ok ["0 0.234375 0.208333 0.156250 0.208333\n"] := by
  have h : process_xml_file (some exampleRoot) CLASS_NAMES =
      Except.ok [yoloLine 0 (convert_to_yolo_format
        (((640 : Int) : ℚ), ((480 : Int) : ℚ))
        (((100 : Int) : ℚ), ((200 : Int) : ℚ), ((50 : Int) : ℚ),
          ((150 : Int) : ℚ)))] := rfl
  rw [h, example_convert, example_line]

/-- C1: for every image size (W, H) with W>0 and H>0 and every box
(xmin, xmax, ymin, ymax), `convert_to_yolo_format` returns exactly
x_center=(xmin+xmax)/(2W), y_center=(ymin+ymax)/(2H), width=(xmax-xmin)/W,
height=(ymax-ymin)/H, as a pure function with no clamping (the equality
holds for all inputs, in-range or not). -/
theorem c1_convert_matches_spec (W H xmin xmax ymin ymax : ℚ)
    (hW : 0 < W) (hH : 0 < H) :
    convert_to_yolo_format (W, H) (xmin, xmax, ymin, ymax) =
      convert_spec W H xmin xmax ymin ymax := rfl

theorem c1_convert_matches_spec_witness :
    convert_to_yolo_format ((640 : ℚ), (480 : ℚ))
      ((-50 : ℚ), (700 : ℚ), (50 : ℚ), (150 : ℚ)) =
      convert_spec 640 480 (-50) 700 50 150 :=
  c1_convert_matches_spec 640 480 (-50) 700 50 150 (by norm_num) (by norm_num)

/-- C2: for every list of annotation identifiers (duplicate-free, as a
directory listing is) and the configured ratios, `data_splits` produces
three pairwise disjoint subsets whose union is the input set and whose
lengths sum to the input length. -/
theorem c2_split_partitions (xs : List String) (hnd : xs.Nodup) :
    splitsPartition xs := by
  have happ := data_splits_append xs
  have hab : train_end xs.length ≤ val_end xs.length := by
    unfold val_end; omega
  have hdd : xs.drop (val_end xs.length) =
      (xs.drop (train_end xs.length)).drop
        (val_end xs.length - train_end xs.length) := by
    rw [List.drop_drop]
    congr 1
    omega
  simp only [splitsPartition, data_splits] at happ ⊢
  refine ⟨⟨?_, ?_, ?_⟩, ?_, ?_⟩
  · intro x hx hy
    exact List.disjoint_take_drop hnd le_rfl hx (List.take_subset _ _ hy)
  · intro x hx hy
    rw [hdd] at hy
    exact List.disjoint_take_drop hnd le_rfl hx (List.drop_subset _ _ hy)
  · have hnd' : (xs.drop (train_end xs.length)).Nodup :=
      List.Nodup.sublist (List.drop_sublist _ _) hnd
    intro x hx hy
    rw [hdd] at hy
    exact List.disjoint_take_drop hnd' le_rfl hx hy
  · intro x
    conv_lhs => rw [← happ]
    simp [List.mem_append, or_assoc]
  · have hlen := congrArg List.length happ
    simp only [List.length_append] at hlen
    omega

theorem c2_split_partitions_witness :
    splitsPartition ["a.xml", "b.xml", "c.xml"] :=
  c2_split_partitions ["a.xml", "b.xml", "c.xml"] (by decide)

/-- C5: `data_splits` cuts contiguous slices at
train_end = floor(train_ratio*N) and val_end = train_end +
floor(val_ratio*N): the train and val slices have exactly the floor
lengths and test receives the remaining N - val_end items. -/
theorem c5_split_slice_lengths (xs : List String) :
    (data_splits xs).1.length = ⌊SPLIT_RATIOS_train * (xs.length : ℚ)⌋₊ ∧
    (data_splits xs).2.1.length = ⌊SPLIT_RATIOS_val * (xs.length : ℚ)⌋₊ ∧
    (data_splits xs).2.2.length = xs.length - val_end xs.length := by
  have ha := train_end_eq xs.length
  have hb := val_end_eq xs.length
  have hv := val_floor_eq xs.length
  refine ⟨?_, ?_, ?_⟩
  · simp only [data_splits, List.length_take]
    rw [show ⌊SPLIT_RATIOS_train * (xs.length : ℚ)⌋₊ =
      train_end xs.length from rfl]
    omega
  · simp only [data_splits, List.length_take, List.length_drop]
    rw [hv]
    omega
  · simp only [data_splits, List.length_drop]

/-- C9: for 0 < W, 0 < H and an in-range box 0 ≤ xmin ≤ xmax ≤ W,
0 ≤ ymin ≤ ymax ≤ H, the four outputs of `convert_to_yolo_format` lie in
[0,1] and re-expanding (x_center ∓ width/2)*W recovers xmin and xmax
exactly (and symmetrically for y); exactness over ℚ is stronger than the
claimed recovery within 6-decimal rounding. -/
theorem c9_convert_round_trip (W H xmin xmax ymin ymax : ℚ)
    (hW : 0 < W) (hH : 0 < H) (h1 : 0 ≤ xmin) (h2 : xmin ≤ xmax)
    (h3 : xmax ≤ W) (h4 : 0 ≤ ymin) (h5 : ymin ≤ ymax) (h6 : ymax ≤ H) :
    roundTripOK W H xmin xmax ymin ymax := by
  have hW0 : W ≠ 0 := ne_of_gt hW
  have hH0 : H ≠ 0 := ne_of_gt hH
  have hc : convert_to_yolo_format (W, H) (xmin, xmax, ymin, ymax) =
      ((xmin + xmax) / (2 * W), (ymin + ymax) / (2 * H),
       (xmax - xmin) / W, (ymax - ymin) / H) := rfl
  unfold roundTripOK
  rw [hc]
  refine ⟨⟨?_, ?_⟩, ⟨?_, ?_⟩, ⟨?_, ?_⟩, ⟨?_, ?_⟩, ?_, ?_, ?_, ?_⟩
  · exact div_nonneg (by linarith) (by linarith)
  · rw [div_le_one (by linarith)]; linarith
  · exact div_nonneg (by linarith) (by linarith)
  · rw [div_le_one (by linarith)]; linarith
  · exact div_nonneg (by linarith) (by linarith)
  · rw [div_le_one (by linarith)]; linarith
  · exact div_nonneg (by linarith) (by linarith)
  · rw [div_le_one (by linarith)]; linarith
  · field_simp; ring
  · field_simp; ring
  · field_simp; ring
  · field_simp; ring

theorem c9_convert_round_trip_witness : roundTripOK 640 480 100 200 50 150 :=
  c9_convert_round_trip 640 480 100 200 50 150 (by norm_num) (by norm_num)
    (by norm_num) (by norm_num) (by norm_num) (by norm_num) (by norm_num)
    (by norm_num)

/-- C4: every line an `Except.ok` run of the parser emits is a
`yoloLine` — the class id, the four 6-decimal-formatted values joined by
single spaces, and a trailing newline (see `yoloLine`); every `fmt6`
rendering has a dot followed by exactly six digits; and on the spec's
example (640x480, box (100,200,50,150), class id 0) the emitted file is
exactly ["0 0.234375 0.208333 0.156250 0.208333\n"]. -/
theorem c4_label_line_format :
    (∀ (doc : Option XmlElem) (classes : List String) (lines : List String),
       process_xml_file doc classes = Except.ok lines →
       ∀ l ∈ lines, ∃ cid b, l = yoloLine cid b) ∧
    (∀ q : ℚ, sixDecimal (fmt6 q)) ∧
    process_xml_file (some exampleRoot) CLASS_NAMES =
      Except.ok ["0 0.234375 0.208333 0.156250 0.208333\n"] := by
  refine ⟨?_, fmt6_sixDecimal, exampleRoot_lines⟩
  intro doc classes lines hp l hm
  obtain ⟨cid, b, hb, _⟩ := processLines_structure doc classes lines hp l hm
  exact ⟨cid, b, hb⟩

theorem c4_label_line_format_witness :
    ∃ cid b, "0 0.234375 0.208333 0.156250 0.208333\n" = yoloLine cid b :=
  c4_label_line_format.1 (some exampleRoot) CLASS_NAMES
    ["0 0.234375 0.208333 0.156250 0.208333\n"] exampleRoot_lines
    "0 0.234375 0.208333 0.156250 0.208333\n" (by simp)

/-- C10: every label line emitted by the parser carries a class id that
is an index into the class registry, so 0 ≤ class_id < classes.length
(the id is a `Nat`, hence never negative). -/
theorem c10_class_id_in_range (doc : Option XmlElem) (classes : List String)
    (lines : List String)
    (hp : process_xml_file doc classes = Except.ok lines) :
    ∀ l ∈ lines, ∃ cid b, l = yoloLine cid b ∧ cid < classes.length :=
  processLines_structure doc classes lines hp

theorem c10_class_id_in_range_witness :
    ∃ cid b, "0 0.234375 0.208333 0.156250 0.208333\n" = yoloLine cid b ∧
      cid < CLASS_NAMES.length :=
  c10_class_id_in_range (some exampleRoot) CLASS_NAMES
    ["0 0.234375 0.208333 0.156250 0.208333\n"] exampleRoot_lines
    "0 0.234375 0.208333 0.156250 0.208333\n" (by simp)

/-- C6: an object whose class name is absent from the registry is skipped
(producing no line) and the remaining objects of the file are processed
exactly as if the unknown-class object were not there, in their original
order. -/
theorem c6_unknown_class_skipped (classes : List String) (w h : Int)
    (pre post : List XmlElem) (obj nmEl : XmlElem) (s : String)
    (hn : obj.find "name" = some nmEl) (ht : nmEl.text = some s)
    (hs : s ∉ classes) :
    processObjList classes w h (pre ++ obj :: post) =
      processObjList classes w h (pre ++ post) := by
  have hobj := processObject_unknown classes w h obj nmEl s hn ht hs
  induction pre with
  | nil => simp only [List.nil_append, processObjList, hobj]
  | cons p ps ih =>
    simp only [List.cons_append, processObjList]
    rcases hp : processObject classes w h p with e | r
    · simp only [hp]
    · rcases r with _ | line
      · simp only [hp]
        exact ih
      · simp only [hp]
        exact congrArg _ ih

theorem c6_unknown_class_skipped_witness :
    processObjList CLASS_NAMES 640 480 ([] ++ unknownClassObj :: []) =
      processObjList CLASS_NAMES 640 480 ([] ++ []) :=
  c6_unknown_class_skipped CLASS_NAMES 640 480 [] [] unknownClassObj
    (XmlElem.mk "name" (some "car") []) "car" rfl rfl (by decide)

/-- C3 (amended): the parser returns an empty result without raising on
XML parse failure, on a missing size section and on a missing width
element; but a width element whose text is empty raises an uncaught
`TypeError`, and one whose text is not an integer raises an uncaught
`ValueError` — the source catches only `ParseError` and `AttributeError`,
so "malformed" size content aborts the pipeline. -/
theorem c3_parser_error_handling :
    (∀ classes, process_xml_file none classes = Except.ok []) ∧
    (∀ (root : XmlElem) (classes : List String), root.find "size" = none →
      process_xml_file (some root) classes = Except.ok []) ∧
    (∀ (root sn : XmlElem) (classes : List String),
      root.find "size" = some sn → sn.find "width" = none →
      process_xml_file (some root) classes = Except.ok []) ∧
    (∀ (root sn wEl : XmlElem) (classes : List String),
      root.find "size" = some sn → sn.find "width" = some wEl →
      wEl.text = none →
      process_xml_file (some root) classes =
        Except.error PyError.typeError) ∧
    (∀ (root sn wEl : XmlElem) (s : String) (classes : List String),
      root.find "size" = some sn → sn.find "width" = some wEl →
      wEl.text = some s → pyParseInt s = none →
      process_xml_file (some root) classes =
        Except.error PyError.valueError) := by
  refine ⟨fun _ => rfl, ?_, ?_, ?_, ?_⟩
  · intro root classes h
    simp only [process_xml_file, getSize, h]
  · intro root sn classes h1 h2
    simp only [process_xml_file, getSize, h1, h2]
  · intro root sn wEl classes h1 h2 h3
    simp only [process_xml_file, getSize, h1, h2, h3, pyInt]
  · intro root sn wEl s classes h1 h2 h3 h4
    simp only [process_xml_file, getSize, h1, h2, h3, h4, pyInt]

theorem c3_parser_error_handling_witness :
    process_xml_file (some noSizeRoot) CLASS_NAMES = Except.ok [] :=
  c3_parser_error_handling.2.1 noSizeRoot CLASS_NAMES rfl

/-- C3 counterexample: on `badRoot`, whose size section is present but
whose width text is "abc", the parser raises an uncaught `ValueError`
instead of warning and returning an empty result, so the claim "the
annotation parser never raises; if the image-size section is absent or
malformed it warns and returns an empty result" is false on the code. -/
theorem c3_parser_claim_counterexample :
    process_xml_file (some badRoot) CLASS_NAMES =
      Except.error PyError.valueError ∧
    process_xml_file (some badRoot) CLASS_NAMES ≠ Except.ok [] := by
  constructor
  · decide
  · decide

/-- C7: in an ok run of the per-subset loop, exactly one label file is
written per identifier, at labels/<subset>/<basename>.txt, holding the
parser's lines verbatim (zero lines gives an empty file, not an absent
one); and a file whose document does not parse contributes its empty
label file and leaves the remaining files processed as before. -/
theorem c7_label_file_always_written :
    (∀ (classes : List String) (env : String → Option XmlElem)
       (subset : String) (files : List String)
       (out : List (String × List String)),
      writeLabels classes env subset files = Except.ok out →
      out.map Prod.fst = files.map (labelOutputPath subset) ∧
      ∀ f ∈ files, ∃ lines,
        process_xml_file (env f) classes = Except.ok lines ∧
          (labelOutputPath subset f, lines) ∈ out) ∧
    (∀ (classes : List String) (env : String → Option XmlElem)
       (subset f : String) (fs : List String), env f = none →
      writeLabels classes env subset (f :: fs) =
        (writeLabels classes env subset fs).map
          (fun rest => (labelOutputPath subset f, []) :: rest)) := by
  constructor
  · intro classes env subset files out h
    exact writeLabels_spec classes env subset files out h
  · intro classes env subset f fs hf
    simp only [writeLabels, hf, process_xml_file]

theorem c7_label_file_always_written_witness :
    writeLabels CLASS_NAMES emptyEnv "train" ("a.xml" :: []) =
      (writeLabels CLASS_NAMES emptyEnv "train" []).map
        (fun rest => (labelOutputPath "train" "a.xml", []) :: rest) :=
  c7_label_file_always_written.2 CLASS_NAMES emptyEnv "train" "a.xml" [] rfl

/-- C8 (amended): `mainRun` stops early with a fatal diagnostic when the
annotation directory is missing or holds no ".xml" file; and it runs to
completion provided every processed annotation avoids the uncaught
exceptions (non-integer or empty numeric text, object without a name
element) — per-item errors that the source catches do not stop it. The
unqualified "in every other case it runs to completion" is refuted by
`c8_termination_claim_counterexample`. -/
theorem c8_termination_behavior :
    (∀ shuffle env, mainRun none shuffle env = MainResult.fatalDirMissing) ∧
    (∀ (names : List String) shuffle env,
      names.filter (fun f => pyEndsWith f ".xml") = [] →
      mainRun (some names) shuffle env = MainResult.fatalNoFiles) ∧
    (∀ (names : List String) shuffle env,
      names.filter (fun f => pyEndsWith f ".xml") ≠ [] →
      (∀ f ∈ shuffle (names.filter (fun f => pyEndsWith f ".xml")),
        ∃ lines, process_xml_file (env f) CLASS_NAMES = Except.ok lines) →
      ∃ out, mainRun (some names) shuffle env =
        MainResult.completed out) := by
  refine ⟨fun _ _ => rfl, ?_, ?_⟩
  · intro names shuffle env h
    simp only [mainRun, h]
    rfl
  · intro names shuffle env hne htame
    have hemp : (names.filter (fun f => pyEndsWith f ".xml")).isEmpty
        = false := by
      rcases h : names.filter (fun f => pyEndsWith f ".xml") with _ | ⟨a, l⟩
      · exact absurd h hne
      · rfl
    have hsub1 : (data_splits (shuffle
        (names.filter (fun f => pyEndsWith f ".xml")))).1 ⊆
        shuffle (names.filter (fun f => pyEndsWith f ".xml")) := by
      simp only [data_splits]
      exact List.take_subset _ _
    have hsub2 : (data_splits (shuffle
        (names.filter (fun f => pyEndsWith f ".xml")))).2.1 ⊆
        shuffle (names.filter (fun f => pyEndsWith f ".xml")) := by
      simp only [data_splits]
      exact fun x hx => List.drop_subset _ _ (List.take_subset _ _ hx)
    have hsub3 : (data_splits (shuffle
        (names.filter (fun f => pyEndsWith f ".xml")))).2.2 ⊆
        shuffle (names.filter (fun f => pyEndsWith f ".xml")) := by
      simp only [data_splits]
      exact List.drop_subset _ _
    obtain ⟨o1, h1⟩ := writeLabels_total CLASS_NAMES env "train"
      (data_splits (shuffle
        (names.filter (fun f => pyEndsWith f ".xml")))).1
      (fun f hf => htame f (hsub1 hf))
    obtain ⟨o2, h2⟩ := writeLabels_total CLASS_NAMES env "val"
      (data_splits (shuffle
        (names.filter (fun f => pyEndsWith f ".xml")))).2.1
      (fun f hf => htame f (hsub2 hf))
    obtain ⟨o3, h3⟩ := writeLabels_total CLASS_NAMES env "test"
      (data_splits (shuffle
        (names.filter (fun f => pyEndsWith f ".xml")))).2.2
      (fun f hf => htame f (hsub3 hf))
    refine ⟨o1 ++ o2 ++ o3, ?_⟩
    simp only [mainRun, hemp, Bool.false_eq_true, if_false, h1, h2, h3]

theorem c8_termination_behavior_witness :
    mainRun none idShuffle emptyEnv = MainResult.fatalDirMissing ∧
    mainRun (some ["README.md"]) idShuffle emptyEnv =
      MainResult.fatalNoFiles ∧
    ∃ out, mainRun (some ["ok.xml"]) idShuffle goodEnv =
      MainResult.completed out :=
  ⟨c8_termination_behavior.1 idShuffle emptyEnv,
   c8_termination_behavior.2.1 ["README.md"] idShuffle emptyEnv (by decide),
   c8_termination_behavior.2.2 ["ok.xml"] idShuffle goodEnv (by decide)
     (fun f hf =>
       ⟨["0 0.234375 0.208333 0.156250 0.208333\n"], exampleRoot_lines⟩)⟩

/-- C8 counterexample: with the annotation directory present and holding
one parsable file whose width text is "abc", the run aborts with an
uncaught `ValueError` — an early termination in a case other than the
two fatal conditions the claim allows. -/
theorem c8_termination_claim_counterexample :
    mainRun (some ["bad.xml"]) idShuffle badEnv =
      MainResult.uncaught PyError.valueError := by
  simp only [mainRun, idShuffle, data_splits, train_end_eq, val_end_eq]
  decide
